import Mathlib

/-!
Shallow embedding of the voice-control prompt-refinement application.

The source is a single React component (two close variants of App in
src/unnamed/part_000, sharing src/types.ts).  The UI state lives in React
state hooks and refs; here it is one record, AppState, and every event
handler of the component becomes a pure function on that record.  Streamed
interactions with the two remote services are passed in as explicit data:
the chunks a refinement stream delivers before it either ends or throws,
the transcript fragments the live session delivers, and the wall-clock
value Date.now() returns at completion time.  The outbound effects that the
claims talk about are recorded in the state: the list of submitted
RefinementRequest inputs, and a counter of invocations of the host
credential-selection capability (window.aistudio.openSelectKey).
-/

/-- Model of AppStatus from src/types.ts. -/
inductive AppStatus where
  | IDLE
  | LISTENING
  | OPTIMIZING
  | FINISHED
  | ERROR
deriving DecidableEq, Repr

/-- Model of HistoryItem from src/types.ts. -/
structure HistoryItem where
  id : String
  timestamp : Nat
  rawInput : String
  optimizedPrompt : String
deriving DecidableEq, Repr

/-- The live-session handle stored in sessionRef. closeThrows records
whether its close() call raises, so that swallowing of teardown errors is
observable in the model. -/
structure Session where
  closeThrows : Bool
deriving DecidableEq, Repr

/-- The React state hooks and refs of the App component, plus two recorded
effects: requests logs every input handed to generateContentStream (newest
first), and selectKeyCalls counts invocations of the host capability
window.aistudio.openSelectKey. The Option Unit refs model the nullable
audio-context, microphone-stream and script-processor handles. -/
structure AppState where
  status : AppStatus
  transcript : String
  manualText : String
  optimizedPrompt : String
  history : List HistoryItem
  error : Option String
  needsApiKey : Bool
  audioContextRef : Option Unit
  streamRef : Option Unit
  scriptProcessorRef : Option Unit
  transcriptRef : String
  sessionRef : Option Session
  hasOpenSelectKey : Bool
  selectKeyCalls : Nat
  requests : List String
deriving DecidableEq, Repr

/-- JS whitespace characters relevant to trim (ASCII subset). -/
def isWsChar (c : Char) : Bool :=
  c == ' ' || c == '\t' || c == '\n' || c == '\r'

/-- Model of JS String.prototype.trim: drop whitespace from both ends. -/
def jsTrim (s : String) : String :=
  String.mk (((s.data.dropWhile isWsChar).reverse.dropWhile isWsChar).reverse)

/-- Model of JS String.prototype.includes: pat occurs somewhere in s. -/
def strIncludes (s pat : String) : Bool :=
  s.data.tails.any (fun t => pat.data.isPrefixOf t)

/-- JS truthiness of an optional string field: undefined and the empty
string are falsy, every other string is truthy. -/
def textTruthy : Option String → Bool
  | some t => !(t == "")
  | none => false

/-- JS string coercion of a possibly-undefined string value: the absent
value prints as the literal text undefined when concatenated. -/
def jsCoerceText : Option String → String
  | some t => t
  | none => "undefined"

/-- Model of JS Number.prototype.toString for a natural timestamp: the
base-10 digits, most significant first. -/
def natToString (n : Nat) : String :=
  if n = 0 then "0"
  else String.mk (((Nat.digits 10 n).map Nat.digitChar).reverse)

/-- The history item literal built on successful completion of
optimizePrompt: id is Date.now().toString(), timestamp is Date.now(). -/
def mkHistoryItem (now : Nat) (rawInput fullText : String) : HistoryItem :=
  { id := natToString now, timestamp := now,
    rawInput := rawInput, optimizedPrompt := fullText }

/-- The error-message needle checked by both catch handlers. -/
def entityNotFoundMsg : String := "Requested entity was not found."

/-- The second needle checked by the variant-1 refinement catch handler. -/
def apiKeyNotValidMsg : String := "API key not valid"

/-- User-facing message of the voice-session onerror handler (variant 1). -/
def voiceEngineErrMsg : String := "语音引擎连接失败，请检查密钥是否正确配置。"

/-- User-facing message of the startListening catch block (variant 1). -/
def micBlockedMsg : String := "麦克风权限受阻，请确保浏览器允许访问音频。"

/-- Refinement failure message for the entity-not-found case (variant 1). -/
def refineNoKeyMsg : String := "炼制失败：未找到有效密钥或项目。请重新选择并重试。"

/-- Refinement failure message for the invalid-key case (variant 1). -/
def refineBadKeyMsg : String := "API 密钥无效，请点击上方配置正确的密钥。"

/-- Generic refinement failure message (variant 1). -/
def refineGenericMsg : String := "炼制过程中发生网络异常或密钥额度不足，请重试。"

/-- handleSelectKey, synchronous part of the fire-and-forget call: when the
host capability is present, openSelectKey is invoked. The later
setNeedsApiKey(false) runs only after the selection flow resolves, in a
subsequent event turn; see handleSelectKeyResolved. -/
def handleSelectKeyStart (s : AppState) : AppState :=
  if s.hasOpenSelectKey then { s with selectKeyCalls := s.selectKeyCalls + 1 }
  else s

/-- Resolution of the handleSelectKey promise: on success the flag is
cleared. -/
def handleSelectKeyResolved (s : AppState) : AppState :=
  if s.hasOpenSelectKey then { s with needsApiKey := false } else s

/-- Closing the live-session handle; raises when closeThrows is set. -/
def sessionClose (sess : Session) : Except String Unit :=
  if sess.closeThrows then Except.error "close failed" else Except.ok ()

/-- stopListeningInternal: close the session handle inside try-catch and
null the ref, disconnect and null the script processor, stop the
microphone tracks and null the stream ref, close and null the audio
context. Each block is guarded by a null check, exactly as in the source.
The two match arms on sessionClose mirror the catch block that discards
any error raised by close(). -/
def stopListeningInternal (s : AppState) : AppState :=
  let s1 :=
    match s.sessionRef with
    | some sess =>
      match sessionClose sess with
      | Except.ok _ => { s with sessionRef := none }
      | Except.error _ => { s with sessionRef := none }
    | none => s
  let s2 :=
    match s1.scriptProcessorRef with
    | some _ => { s1 with scriptProcessorRef := none }
    | none => s1
  let s3 :=
    match s2.streamRef with
    | some _ => { s2 with streamRef := none }
    | none => s2
  match s3.audioContextRef with
  | some _ => { s3 with audioContextRef := none }
  | none => s3

/-- handleError: record the message, enter ERROR, release everything. -/
def handleError (msg : String) (s : AppState) : AppState :=
  stopListeningInternal { s with error := some msg, status := AppStatus.ERROR }

/-- The reset performed at the top of startListening, before any resource
is acquired: clear the error, both displayed texts, and the transcript
buffer. The credential pre-check that precedes it is elided: it cannot
throw (handleSelectKey catches rejections) and touches none of these
fields. -/
def startListeningReset (s : AppState) : AppState :=
  { s with error := none, transcript := "", optimizedPrompt := "",
           transcriptRef := "" }

/-- startListening: reset, create the audio context (ref set), then request
the microphone. micOk says whether getUserMedia succeeds; on failure the
catch block runs handleError with the microphone message. -/
def startListening (s : AppState) (micOk : Bool) : AppState :=
  let s1 := startListeningReset s
  let s2 := { s1 with audioContextRef := some () }
  if micOk then { s2 with streamRef := some () }
  else handleError micBlockedMsg s2

/-- onopen callback: wire the script processor and enter LISTENING. -/
def onopen (s : AppState) : AppState :=
  { s with scriptProcessorRef := some (), status := AppStatus.LISTENING }

/-- First resolution of sessionPromise inside onaudioprocess stores the
session handle in sessionRef. -/
def sessionResolved (sess : Session) (s : AppState) : AppState :=
  { s with sessionRef := some sess }

/-- onmessage callback: frag is serverContent.inputTranscription.text when
the message carries a transcription, absent otherwise. A fragment is
appended to the transcript ref and the cumulative buffer republished. -/
def onmessage (s : AppState) (frag : Option String) : AppState :=
  match frag with
  | some part =>
    { s with transcriptRef := s.transcriptRef ++ part,
             transcript := s.transcriptRef ++ part }
  | none => s

/-- onerror callback of the live session (variant 1): flag and re-invoke
key selection on the entity-not-found message, then always handleError. -/
def onerror (s : AppState) (emsg : String) : AppState :=
  let s1 :=
    if strIncludes emsg entityNotFoundMsg then
      handleSelectKeyStart { s with needsApiKey := true }
    else s
  handleError voiceEngineErrMsg s1

/-- Variant-1 stream loop body: append chunk.text only when truthy. -/
def appendChunkV1 (acc : String) (c : Option String) : String :=
  if textTruthy c then acc ++ jsCoerceText c else acc

/-- Variant-1 accumulation over a whole chunk sequence. -/
def accumChunksV1 (chunks : List (Option String)) : String :=
  chunks.foldl appendChunkV1 ""

/-- Variant-2 stream loop body: append chunk.text unconditionally, with JS
string coercion of an absent field. -/
def appendChunkV2 (acc : String) (c : Option String) : String :=
  acc ++ jsCoerceText c

/-- Variant-2 accumulation over a whole chunk sequence. -/
def accumChunksV2 (chunks : List (Option String)) : String :=
  chunks.foldl appendChunkV2 ""

/-- The ordered concatenation of the deltas received: text fields that are
present, in order. -/
def concatDeltas : List (Option String) → String
  | [] => ""
  | none :: rest => concatDeltas rest
  | some t :: rest => t ++ concatDeltas rest

/-- Ordered concatenation of a fragment sequence. -/
def concatAll : List String → String
  | [] => ""
  | t :: rest => t ++ concatAll rest

/-- Synchronous head of optimizePrompt (variant 1), up to issuing the
generateContentStream request: status OPTIMIZING, displayed output
cleared, error cleared, and the RefinementRequest recorded with the exact
input string it was given. -/
def optimizePromptStart (s : AppState) (rawInput : String) : AppState :=
  { s with status := AppStatus.OPTIMIZING, optimizedPrompt := "",
           error := none, requests := rawInput :: s.requests }

/-- Variant-2 head of optimizePrompt: identical except that it does not
clear the error message. -/
def optimizePromptStartV2 (s : AppState) (rawInput : String) : AppState :=
  { s with status := AppStatus.OPTIMIZING, optimizedPrompt := "",
           requests := rawInput :: s.requests }

/-- Full run of optimizePrompt (variant 1). chunks are the stream chunks
delivered, in order; err is the error the stream throws after them, none
meaning exhaustion without error. On exhaustion a history item is
prepended and status becomes FINISHED; in the catch block the three
message tests of the source select the user-facing message, with the
entity-not-found case additionally flagging needsApiKey and re-invoking
key selection. now is the value of Date.now() at completion. -/
def optimizePrompt (s : AppState) (rawInput : String) (now : Nat)
    (chunks : List (Option String)) (err : Option String) : AppState :=
  let s1 := optimizePromptStart s rawInput
  let fullText := accumChunksV1 chunks
  let s2 := { s1 with optimizedPrompt := fullText }
  match err with
  | none =>
    { s2 with history := mkHistoryItem now rawInput fullText :: s2.history,
              status := AppStatus.FINISHED }
  | some e =>
    if strIncludes e entityNotFoundMsg then
      handleError refineNoKeyMsg
        (handleSelectKeyStart { s2 with needsApiKey := true })
    else if strIncludes e apiKeyNotValidMsg then
      handleError refineBadKeyMsg s2
    else
      handleError refineGenericMsg s2

/-- stopListening, the whole synchronous turn: read and trim the buffer,
tear everything down, then either issue the refinement request (the
awaited stream body of optimizePrompt runs in later turns) or return to
IDLE. -/
def stopListening (s : AppState) : AppState :=
  let finalTranscript := jsTrim s.transcriptRef
  let s1 := stopListeningInternal s
  if finalTranscript ≠ "" then optimizePromptStart s1 finalTranscript
  else { s1 with status := AppStatus.IDLE }

/-- handleManualSubmit (variant-1 text mode): when the trimmed manual text
is non-empty, submit exactly that trimmed text. The credential pre-check
between the guard and the submission is elided: it cannot throw and does
not affect the submitted text. -/
def handleManualSubmit (s : AppState) : AppState :=
  if jsTrim s.manualText ≠ "" then optimizePromptStart s (jsTrim s.manualText)
  else s

/-- handleRegenerate (variant 2): when the trimmed transcript is non-empty,
resubmit, passing the raw untrimmed transcriptRef to optimizePrompt. Uses
the variant-2 head. -/
def handleRegenerate (s : AppState) : AppState :=
  if jsTrim s.transcriptRef ≠ "" then optimizePromptStartV2 s s.transcriptRef
  else s

/-- onclose callback: an implicit close that arrives while still LISTENING
runs stopListening; otherwise it does nothing. -/
def onclose (s : AppState) : AppState :=
  if s.status = AppStatus.LISTENING then stopListening s else s

/-- Delivery of a sequence of transcription fragments, one onmessage each. -/
def runFragments (s : AppState) (frags : List String) : AppState :=
  frags.foldl (fun st f => onmessage st (some f)) s

/-- All four capture and session refs are nulled: no session handle, no
audio-processing node, no microphone stream, no audio context. -/
def resourcesReleased (s : AppState) : Prop :=
  s.sessionRef = none ∧ s.scriptProcessorRef = none ∧
  s.streamRef = none ∧ s.audioContextRef = none

/-- A quiescent state used to instantiate witnesses and counterexamples. -/
def initialState : AppState :=
  { status := AppStatus.IDLE, transcript := "", manualText := "",
    optimizedPrompt := "", history := [], error := none,
    needsApiKey := false, audioContextRef := none, streamRef := none,
    scriptProcessorRef := none, transcriptRef := "", sessionRef := none,
    hasOpenSelectKey := true, selectKeyCalls := 0, requests := [] }

/-- Default item for safe list indexing in concrete statements. -/
def defaultItem : HistoryItem :=
  { id := "", timestamp := 0, rawInput := "", optimizedPrompt := "" }

/-- Decoder of a decimal string, left inverse of natToString. -/
def decodeDecimal (s : String) : Nat :=
  s.data.foldl (fun acc c => acc * 10 + (c.toNat - 48)) 0

/-! ### Helper lemmas -/

theorem strAppend_empty (a : String) : a ++ "" = a := by
  cases a with
  | mk l =>
    show String.mk (l ++ []) = String.mk l
    rw [List.append_nil]

theorem strEmpty_append (a : String) : "" ++ a = a := rfl

theorem strAppend_assoc (a b c : String) : a ++ b ++ c = a ++ (b ++ c) := by
  cases a with
  | mk la =>
    cases b with
    | mk lb =>
      cases c with
      | mk lc =>
        show String.mk (la ++ lb ++ lc) = String.mk (la ++ (lb ++ lc))
        rw [List.append_assoc]

theorem stopListeningInternal_eq (s : AppState) :
    stopListeningInternal s =
      { s with sessionRef := none, scriptProcessorRef := none,
               streamRef := none, audioContextRef := none } := by
  obtain ⟨st, tr, mt, op, hi, er, na, ac, sr, sp, tb, se, hk, kc, rq⟩ := s
  cases se with
  | none => cases sp <;> cases sr <;> cases ac <;> rfl
  | some sess =>
    cases sess with
    | mk b => cases b <;> cases sp <;> cases sr <;> cases ac <;> rfl

theorem handleError_eq (m : String) (s : AppState) :
    handleError m s =
      { s with error := some m, status := AppStatus.ERROR, sessionRef := none,
               scriptProcessorRef := none, streamRef := none,
               audioContextRef := none } := by
  unfold handleError
  rw [stopListeningInternal_eq]

theorem handleError_history (m : String) (s : AppState) :
    (handleError m s).history = s.history := by
  rw [handleError_eq]

theorem handleSelectKeyStart_history (s : AppState) :
    (handleSelectKeyStart s).history = s.history := by
  unfold handleSelectKeyStart
  split <;> rfl

theorem handleSelectKeyStart_eq_of_cap (s : AppState)
    (h : s.hasOpenSelectKey = true) :
    handleSelectKeyStart s = { s with selectKeyCalls := s.selectKeyCalls + 1 } := by
  unfold handleSelectKeyStart
  rw [if_pos h]

theorem released_stopListeningInternal (s : AppState) :
    resourcesReleased (stopListeningInternal s) := by
  rw [stopListeningInternal_eq]
  exact ⟨rfl, rfl, rfl, rfl⟩

theorem stopListening_eq_of_ne (s : AppState) (h : jsTrim s.transcriptRef ≠ "") :
    stopListening s =
      optimizePromptStart (stopListeningInternal s) (jsTrim s.transcriptRef) := by
  show (if jsTrim s.transcriptRef ≠ "" then
          optimizePromptStart (stopListeningInternal s) (jsTrim s.transcriptRef)
        else { stopListeningInternal s with status := AppStatus.IDLE }) = _
  rw [if_pos h]

theorem stopListening_eq_of_eq (s : AppState) (h : jsTrim s.transcriptRef = "") :
    stopListening s = { stopListeningInternal s with status := AppStatus.IDLE } := by
  show (if jsTrim s.transcriptRef ≠ "" then
          optimizePromptStart (stopListeningInternal s) (jsTrim s.transcriptRef)
        else { stopListeningInternal s with status := AppStatus.IDLE }) = _
  rw [if_neg (not_not_intro h)]

theorem released_stopListening (s : AppState) :
    resourcesReleased (stopListening s) := by
  obtain ⟨h1, h2, h3, h4⟩ := released_stopListeningInternal s
  by_cases h : jsTrim s.transcriptRef = ""
  · rw [stopListening_eq_of_eq s h]
    exact ⟨h1, h2, h3, h4⟩
  · rw [stopListening_eq_of_ne s h]
    exact ⟨h1, h2, h3, h4⟩

theorem released_handleError (m : String) (s : AppState) :
    resourcesReleased (handleError m s) := by
  rw [handleError_eq]
  exact ⟨rfl, rfl, rfl, rfl⟩

theorem stopListening_char (s : AppState) :
    (jsTrim s.transcriptRef ≠ "" →
      (stopListening s).status = AppStatus.OPTIMIZING ∧
      (stopListening s).requests = jsTrim s.transcriptRef :: s.requests) ∧
    (jsTrim s.transcriptRef = "" →
      (stopListening s).status = AppStatus.IDLE ∧
      (stopListening s).requests = s.requests) := by
  constructor
  · intro h
    rw [stopListening_eq_of_ne s h]
    refine ⟨rfl, ?_⟩
    show jsTrim s.transcriptRef :: (stopListeningInternal s).requests = _
    rw [stopListeningInternal_eq]
  · intro h
    rw [stopListening_eq_of_eq s h]
    refine ⟨rfl, ?_⟩
    show (stopListeningInternal s).requests = s.requests
    rw [stopListeningInternal_eq]

theorem stopListening_history (s : AppState) :
    (stopListening s).history = s.history := by
  by_cases h : jsTrim s.transcriptRef = ""
  · rw [stopListening_eq_of_eq s h]
    show (stopListeningInternal s).history = s.history
    rw [stopListeningInternal_eq]
  · rw [stopListening_eq_of_ne s h]
    show (stopListeningInternal s).history = s.history
    rw [stopListeningInternal_eq]

theorem stopListening_transcriptRef (s : AppState) :
    (stopListening s).transcriptRef = s.transcriptRef := by
  by_cases h : jsTrim s.transcriptRef = ""
  · rw [stopListening_eq_of_eq s h]
    show (stopListeningInternal s).transcriptRef = s.transcriptRef
    rw [stopListeningInternal_eq]
  · rw [stopListening_eq_of_ne s h]
    show (stopListeningInternal s).transcriptRef = s.transcriptRef
    rw [stopListeningInternal_eq]

theorem foldl_appendChunkV1 (chunks : List (Option String)) (acc : String) :
    chunks.foldl appendChunkV1 acc = acc ++ concatDeltas chunks := by
  induction chunks generalizing acc with
  | nil =>
    rw [List.foldl_nil]
    show acc = acc ++ ""
    rw [strAppend_empty]
  | cons c t ih =>
    rw [List.foldl_cons, ih]
    cases c with
    | none => rfl
    | some x =>
      by_cases hx : x = ""
      · subst hx; rfl
      · have hbeq : (x == "") = false := beq_eq_false_iff_ne.mpr hx
        show (if !(x == "") then acc ++ x else acc) ++ concatDeltas t =
          acc ++ (x ++ concatDeltas t)
        rw [hbeq]
        exact strAppend_assoc acc x (concatDeltas t)

theorem accumChunksV1_eq (chunks : List (Option String)) :
    accumChunksV1 chunks = concatDeltas chunks := by
  unfold accumChunksV1
  rw [foldl_appendChunkV1]
  rfl

theorem runFragments_transcriptRef (frags : List String) (s : AppState) :
    (runFragments s frags).transcriptRef = s.transcriptRef ++ concatAll frags := by
  induction frags generalizing s with
  | nil =>
    show s.transcriptRef = s.transcriptRef ++ ""
    rw [strAppend_empty]
  | cons f t ih =>
    show (runFragments (onmessage s (some f)) t).transcriptRef = _
    rw [ih]
    show (s.transcriptRef ++ f) ++ concatAll t =
      s.transcriptRef ++ (f ++ concatAll t)
    exact strAppend_assoc _ _ _

theorem foldr_digitChar (ds : List Nat) (h : ∀ d ∈ ds, d < 10) :
    List.foldr (fun c acc => acc * 10 + (c.toNat - 48)) 0 (ds.map Nat.digitChar) =
      Nat.ofDigits 10 ds := by
  induction ds with
  | nil => simp [Nat.ofDigits_nil]
  | cons d t ih =>
    have hd : d < 10 := h d (List.mem_cons_self d t)
    have ht : ∀ x ∈ t, x < 10 := fun x hx => h x (List.mem_cons_of_mem d hx)
    have hchar : (Nat.digitChar d).toNat - 48 = d := by
      interval_cases d <;> rfl
    simp only [List.map_cons, List.foldr_cons, ih ht, Nat.ofDigits_cons, hchar]
    omega

theorem decode_natToString (n : Nat) : decodeDecimal (natToString n) = n := by
  by_cases h : n = 0
  · subst h; decide
  · unfold natToString decodeDecimal
    rw [if_neg h]
    show List.foldl _ 0 (((Nat.digits 10 n).map Nat.digitChar).reverse) = n
    rw [List.foldl_reverse]
    rw [foldr_digitChar _ (fun d hd => Nat.digits_lt_base (by norm_num) hd)]
    exact Nat.ofDigits_digits 10 n

theorem natToString_inj {m n : Nat} (h : natToString m = natToString n) :
    m = n := by
  have h2 := congrArg decodeDecimal h
  rwa [decode_natToString, decode_natToString] at h2

/-! ### Claim theorems -/

/-- C1: after every exit from the Listening phase — user-initiated stop,
capture or session error, or implicit close — the streaming session
handle, the audio-processing node, the microphone stream and the audio
context are all released (their refs nulled) before any new Listening
phase can begin. -/
theorem c1_releaseOnAllExits (s : AppState) (emsg m : String) :
    resourcesReleased (stopListening s) ∧
    resourcesReleased (handleError m s) ∧
    resourcesReleased (onerror s emsg) ∧
    resourcesReleased (onclose { s with status := AppStatus.LISTENING }) := by
  refine ⟨released_stopListening s, released_handleError m s, ?_, ?_⟩
  · show resourcesReleased (handleError voiceEngineErrMsg _)
    exact released_handleError _ _
  · show resourcesReleased
      (if ({ s with status := AppStatus.LISTENING } : AppState).status =
          AppStatus.LISTENING
       then stopListening { s with status := AppStatus.LISTENING }
       else { s with status := AppStatus.LISTENING })
    rw [if_pos rfl]
    exact released_stopListening _

/-- C2: a HistoryItem is appended if and only if the refinement stream is
consumed to exhaustion with no error; its rawInput equals exactly the
input passed to optimizePrompt, its optimizedPrompt equals exactly the
ordered concatenation of the stream deltas received, the new item is
prepended (history is newest first), and on a stream error no item, not
even a partial one, is added. -/
theorem c2_historyIffSuccess (s : AppState) (rawInput : String) (now : Nat)
    (chunks : List (Option String)) (err : Option String) :
    (err = none →
      (optimizePrompt s rawInput now chunks err).history =
        mkHistoryItem now rawInput (concatDeltas chunks) :: s.history ∧
      (mkHistoryItem now rawInput (concatDeltas chunks)).rawInput = rawInput ∧
      (mkHistoryItem now rawInput (concatDeltas chunks)).optimizedPrompt =
        concatDeltas chunks ∧
      (optimizePrompt s rawInput now chunks err).status = AppStatus.FINISHED) ∧
    (err ≠ none →
      (optimizePrompt s rawInput now chunks err).history = s.history) := by
  constructor
  · intro h
    subst h
    refine ⟨?_, rfl, rfl, rfl⟩
    show mkHistoryItem now rawInput (accumChunksV1 chunks) :: s.history = _
    rw [accumChunksV1_eq]
  · intro h
    rcases err with _ | e
    · exact absurd rfl h
    · show (if strIncludes e entityNotFoundMsg then
              handleError refineNoKeyMsg
                (handleSelectKeyStart
                  { optimizePromptStart s rawInput with
                      optimizedPrompt := accumChunksV1 chunks,
                      needsApiKey := true })
            else if strIncludes e apiKeyNotValidMsg then
              handleError refineBadKeyMsg
                { optimizePromptStart s rawInput with
                    optimizedPrompt := accumChunksV1 chunks }
            else
              handleError refineGenericMsg
                { optimizePromptStart s rawInput with
                    optimizedPrompt := accumChunksV1 chunks }).history = s.history
      split
      · rw [handleError_history, handleSelectKeyStart_history]
        rfl
      · split
        · rw [handleError_history]
          rfl
        · rw [handleError_history]
          rfl

/-- Witness for C2 at concrete inputs: a successful stream of three chunks
appends exactly one item in front, and an erroring stream leaves the
history unchanged. -/
theorem c2_witness :
    (optimizePrompt initialState "hello" 7 [some "# H", none, some "i"]
        none).history =
      mkHistoryItem 7 "hello" (concatDeltas [some "# H", none, some "i"]) ::
        initialState.history ∧
    (optimizePrompt initialState "x" 7 [] (some "boom")).history =
      initialState.history := by
  refine ⟨((c2_historyIffSuccess initialState "hello" 7
    [some "# H", none, some "i"] none).1 rfl).1, ?_⟩
  exact (c2_historyIffSuccess initialState "x" 7 [] (some "boom")).2
    (by decide)

/-- C3: for every sequence of transcript fragments delivered during one
capture session, the transcript buffer after stop equals the ordered
concatenation of all fragments received; the buffer is reset to empty at
the start of the Listening phase and every fragment strictly appends, so
the reset happens exactly once, at the start. -/
theorem c3_transcriptAccumulation (s : AppState) (frags : List String)
    (micOk : Bool) :
    (runFragments (startListening s micOk) frags).transcriptRef =
      concatAll frags ∧
    (stopListening (runFragments (startListening s micOk) frags)).transcriptRef =
      concatAll frags ∧
    (startListening s micOk).transcriptRef = "" ∧
    (∀ st : AppState, ∀ f : String,
      (onmessage st (some f)).transcriptRef = st.transcriptRef ++ f) ∧
    (∀ st : AppState, onmessage st none = st) := by
  have hreset : (startListening s micOk).transcriptRef = "" := by
    cases micOk with
    | true => rfl
    | false =>
      show (handleError micBlockedMsg _).transcriptRef = ""
      rw [handleError_eq]
      rfl
  have hrun : (runFragments (startListening s micOk) frags).transcriptRef =
      concatAll frags := by
    rw [runFragments_transcriptRef, hreset]
    exact strEmpty_append _
  refine ⟨hrun, ?_, hreset, fun st f => rfl, fun st => rfl⟩
  rw [stopListening_transcriptRef, hrun]

/-- C8: stopListeningInternal is idempotent, tolerates a session that was
never fully established (all refs already null, in which case it is the
identity), and its result never depends on whether closing the session
handle raises — the teardown error is swallowed, not propagated. -/
theorem c8_teardownIdempotent (s : AppState) :
    stopListeningInternal (stopListeningInternal s) = stopListeningInternal s ∧
    (resourcesReleased s → stopListeningInternal s = s) ∧
    (∀ b1 b2 : Bool,
      stopListeningInternal
          { s with sessionRef := some { closeThrows := b1 } } =
        stopListeningInternal
          { s with sessionRef := some { closeThrows := b2 } }) := by
  refine ⟨?_, ?_, ?_⟩
  · simp only [stopListeningInternal_eq]
  · rintro ⟨h1, h2, h3, h4⟩
    rw [stopListeningInternal_eq]
    obtain ⟨st, tr, mt, op, hi, er, na, ac, sr, sp, tb, se, hk, kc, rq⟩ := s
    simp only at h1 h2 h3 h4
    subst h1 h2 h3 h4
    rfl
  · intro b1 b2
    simp only [stopListeningInternal_eq]

/-- Witness for C8: on the quiescent state the double teardown equals the
single one, and with nothing established teardown is the identity. -/
theorem c8_witness :
    stopListeningInternal (stopListeningInternal initialState) =
      stopListeningInternal initialState ∧
    stopListeningInternal initialState = initialState :=
  ⟨(c8_teardownIdempotent initialState).1,
   (c8_teardownIdempotent initialState).2.1 ⟨rfl, rfl, rfl, rfl⟩⟩

/-- A Listening state whose buffer holds a single space. -/
def listenWsState : AppState :=
  { initialState with status := AppStatus.LISTENING, transcriptRef := " " }

/-- A Listening state whose buffer holds a single tab. -/
def listenTabState : AppState :=
  { initialState with status := AppStatus.LISTENING, transcriptRef := "\t" }

/-- A Listening state whose buffer holds the text hi. -/
def listenHiState : AppState :=
  { initialState with status := AppStatus.LISTENING, transcriptRef := "hi" }

/-- C4 counterexample: with a whitespace-only (hence non-empty) transcript
buffer, the exit from Listening goes to IDLE and submits nothing, although
the claim requires a transition to Optimizing with a submission. -/
theorem c4_counterexample :
    listenWsState.transcriptRef ≠ "" ∧
    (stopListening listenWsState).status = AppStatus.IDLE ∧
    (stopListening listenWsState).requests = [] := by
  decide

/-- C4 amended: on exit from Listening, if the TRIMMED transcript buffer is
non-empty the machine transitions to Optimizing and submits a
RefinementRequest carrying the trimmed buffer content; otherwise it
transitions to Idle with no request submitted. -/
theorem c4_amended_stopSubmit (s : AppState) :
    (jsTrim s.transcriptRef ≠ "" →
      (stopListening s).status = AppStatus.OPTIMIZING ∧
      (stopListening s).requests = jsTrim s.transcriptRef :: s.requests) ∧
    (jsTrim s.transcriptRef = "" →
      (stopListening s).status = AppStatus.IDLE ∧
      (stopListening s).requests = s.requests) :=
  stopListening_char s

/-- Witness for the amended C4 at a concrete state with transcript hi. -/
theorem c4_amended_witness :
    (stopListening { initialState with transcriptRef := "hi" }).status =
      AppStatus.OPTIMIZING ∧
    (stopListening { initialState with transcriptRef := "hi" }).requests =
      ["hi"] := by
  have h := (c4_amended_stopSubmit
    { initialState with transcriptRef := "hi" }).1 (by decide)
  exact ⟨h.1, h.2⟩

/-- C5 counterexample: a close event during Listening with a whitespace-only
(hence non-empty) buffer releases resources but submits no refinement,
although the claim requires a submission for any non-empty buffer. -/
theorem c5_counterexample :
    listenTabState.status = AppStatus.LISTENING ∧
    listenTabState.transcriptRef ≠ "" ∧
    (onclose listenTabState).requests = [] ∧
    (onclose listenTabState).status = AppStatus.IDLE := by
  decide

/-- C5 amended: a close event that fires while the status is still
Listening is treated exactly as a user-initiated stopListening: resources
are released and, if the TRIMMED buffer is non-empty, the refinement is
submitted with the trimmed content, else the machine goes to Idle. A close
in any other status has no effect. -/
theorem c5_amended_implicitClose (s : AppState) :
    (s.status = AppStatus.LISTENING →
      onclose s = stopListening s ∧
      resourcesReleased (onclose s) ∧
      (jsTrim s.transcriptRef ≠ "" →
        (onclose s).status = AppStatus.OPTIMIZING ∧
        (onclose s).requests = jsTrim s.transcriptRef :: s.requests) ∧
      (jsTrim s.transcriptRef = "" →
        (onclose s).status = AppStatus.IDLE ∧
        (onclose s).requests = s.requests)) ∧
    (s.status ≠ AppStatus.LISTENING → onclose s = s) := by
  constructor
  · intro h
    have heq : onclose s = stopListening s := by
      unfold onclose
      rw [if_pos h]
    rw [heq]
    exact ⟨rfl, released_stopListening s, (stopListening_char s).1,
      (stopListening_char s).2⟩
  · intro h
    unfold onclose
    rw [if_neg h]

/-- Witness for the amended C5 at a concrete Listening state. -/
theorem c5_amended_witness :
    resourcesReleased (onclose listenHiState) ∧
    (onclose listenHiState).requests = ["hi"] := by
  have h := (c5_amended_implicitClose listenHiState).1 rfl
  exact ⟨h.2.1, (h.2.2.1 (by decide)).2⟩

/-- C6 counterexample: handleRegenerate submits the raw transcript ref,
which here is non-empty after trimming but is itself not
whitespace-trimmed, refuting the claim that every call to optimizePrompt
passes a whitespace-trimmed input. -/
theorem c6_counterexample :
    (handleRegenerate { initialState with transcriptRef := " hi " }).requests =
      [" hi "] ∧
    jsTrim " hi " ≠ " hi " := by
  decide

/-- C6 amended: a RefinementRequest is triggered on a path only when the
trimmed source text of that path is non-empty — so empty or whitespace-only
text never triggers one — and the voice-stop and manual-submit paths pass
exactly the trimmed text, while the regenerate path passes the raw
(possibly untrimmed) transcript. -/
theorem c6_amended_submitGuards (s : AppState) :
    (jsTrim s.transcriptRef = "" →
      (stopListening s).requests = s.requests) ∧
    (jsTrim s.transcriptRef ≠ "" →
      (stopListening s).requests = jsTrim s.transcriptRef :: s.requests) ∧
    (jsTrim s.manualText = "" →
      (handleManualSubmit s).requests = s.requests) ∧
    (jsTrim s.manualText ≠ "" →
      (handleManualSubmit s).requests = jsTrim s.manualText :: s.requests) ∧
    (jsTrim s.transcriptRef = "" →
      (handleRegenerate s).requests = s.requests) ∧
    (jsTrim s.transcriptRef ≠ "" →
      (handleRegenerate s).requests = s.transcriptRef :: s.requests) := by
  refine ⟨fun h => ((stopListening_char s).2 h).2,
    fun h => ((stopListening_char s).1 h).2, ?_, ?_, ?_, ?_⟩
  · intro h
    unfold handleManualSubmit
    rw [if_neg (not_not_intro h)]
  · intro h
    unfold handleManualSubmit
    rw [if_pos h]
    rfl
  · intro h
    unfold handleRegenerate
    rw [if_neg (not_not_intro h)]
  · intro h
    unfold handleRegenerate
    rw [if_pos h]
    rfl

/-- Witness for the amended C6: the manual path submits the trimmed text,
the regenerate path submits the raw transcript. -/
theorem c6_amended_witness :
    (handleManualSubmit { initialState with manualText := " m " }).requests =
      ["m"] ∧
    (handleRegenerate { initialState with transcriptRef := " x " }).requests =
      [" x "] := by
  refine ⟨?_, ?_⟩
  · exact (c6_amended_submitGuards
      { initialState with manualText := " m " }).2.2.2.1 (by decide)
  · exact (c6_amended_submitGuards
      { initialState with transcriptRef := " x " }).2.2.2.2.2 (by decide)

/-- C7: whenever a voice-session or refinement error message contains the
entity-not-found needle and the host credential capability is present, the
program sets needsApiKey, invokes the credential-selection capability
exactly once more, and moves to ERROR with the corresponding
human-readable message. -/
theorem errorFlow_char (m : String) (s : AppState)
    (h : s.hasOpenSelectKey = true) :
    (handleError m (handleSelectKeyStart s)).needsApiKey = s.needsApiKey ∧
    (handleError m (handleSelectKeyStart s)).selectKeyCalls =
      s.selectKeyCalls + 1 ∧
    (handleError m (handleSelectKeyStart s)).status = AppStatus.ERROR ∧
    (handleError m (handleSelectKeyStart s)).error = some m := by
  rw [handleSelectKeyStart_eq_of_cap s h, handleError_eq]
  exact ⟨rfl, rfl, rfl, rfl⟩

theorem c7_needsCredentialFlow (s : AppState) (emsg : String)
    (hcap : s.hasOpenSelectKey = true)
    (hmsg : strIncludes emsg entityNotFoundMsg = true) :
    ((onerror s emsg).needsApiKey = true ∧
     (onerror s emsg).selectKeyCalls = s.selectKeyCalls + 1 ∧
     (onerror s emsg).status = AppStatus.ERROR ∧
     (onerror s emsg).error = some voiceEngineErrMsg) ∧
    (∀ raw : String, ∀ now : Nat, ∀ chunks : List (Option String),
      (optimizePrompt s raw now chunks (some emsg)).needsApiKey = true ∧
      (optimizePrompt s raw now chunks (some emsg)).selectKeyCalls =
        s.selectKeyCalls + 1 ∧
      (optimizePrompt s raw now chunks (some emsg)).status =
        AppStatus.ERROR ∧
      (optimizePrompt s raw now chunks (some emsg)).error =
        some refineNoKeyMsg) := by
  constructor
  · have heq : onerror s emsg =
        handleError voiceEngineErrMsg
          (handleSelectKeyStart { s with needsApiKey := true }) := by
      unfold onerror
      rw [if_pos hmsg]
    rw [heq]
    have h2 := errorFlow_char voiceEngineErrMsg
      { s with needsApiKey := true } hcap
    exact ⟨h2.1, h2.2.1, h2.2.2.1, h2.2.2.2⟩
  · intro raw now chunks
    have heq : optimizePrompt s raw now chunks (some emsg) =
        handleError refineNoKeyMsg
          (handleSelectKeyStart
            { optimizePromptStart s raw with
                optimizedPrompt := accumChunksV1 chunks,
                needsApiKey := true }) := by
      show (if strIncludes emsg entityNotFoundMsg then
              handleError refineNoKeyMsg
                (handleSelectKeyStart
                  { optimizePromptStart s raw with
                      optimizedPrompt := accumChunksV1 chunks,
                      needsApiKey := true })
            else if strIncludes emsg apiKeyNotValidMsg then
              handleError refineBadKeyMsg
                { optimizePromptStart s raw with
                    optimizedPrompt := accumChunksV1 chunks }
            else
              handleError refineGenericMsg
                { optimizePromptStart s raw with
                    optimizedPrompt := accumChunksV1 chunks }) = _
      rw [if_pos hmsg]
    rw [heq]
    have h2 := errorFlow_char refineNoKeyMsg
      { optimizePromptStart s raw with
          optimizedPrompt := accumChunksV1 chunks, needsApiKey := true } hcap
    exact ⟨h2.1, h2.2.1, h2.2.2.1, h2.2.2.2⟩

/-- Witness for C7 at the quiescent state with the literal needle as the
error message, through both the voice-session and the refinement path. -/
theorem c7_witness :
    ((onerror initialState entityNotFoundMsg).needsApiKey = true ∧
     (onerror initialState entityNotFoundMsg).selectKeyCalls = 1 ∧
     (onerror initialState entityNotFoundMsg).status = AppStatus.ERROR ∧
     (onerror initialState entityNotFoundMsg).error =
       some voiceEngineErrMsg) ∧
    ((optimizePrompt initialState "x" 0 []
        (some entityNotFoundMsg)).needsApiKey = true ∧
     (optimizePrompt initialState "x" 0 []
        (some entityNotFoundMsg)).selectKeyCalls = 1 ∧
     (optimizePrompt initialState "x" 0 []
        (some entityNotFoundMsg)).status = AppStatus.ERROR ∧
     (optimizePrompt initialState "x" 0 []
        (some entityNotFoundMsg)).error = some refineNoKeyMsg) := by
  have h := c7_needsCredentialFlow initialState entityNotFoundMsg rfl
    (by decide)
  exact ⟨h.1, h.2 "x" 0 []⟩

/-- The history after two successful refinements both completing at
timestamp 5, with different inputs. -/
def sameMsHistory : List HistoryItem :=
  (optimizePrompt (optimizePrompt initialState "a" 5 [] none)
    "b" 5 [] none).history

/-- C9 counterexample: two distinct items stored in the history (their raw
inputs differ) carry the same id, because both refinements completed at
the same millisecond and the id is Date.now().toString(). -/
theorem c9_counterexample :
    sameMsHistory.getD 0 defaultItem ≠ sameMsHistory.getD 1 defaultItem ∧
    (sameMsHistory.getD 0 defaultItem).id =
      (sameMsHistory.getD 1 defaultItem).id := by
  refine ⟨?_, rfl⟩
  intro h
  have hr := congrArg HistoryItem.rawInput h
  exact absurd hr (by decide)

/-- C9 amended: the id of a stored item is the decimal string of its
creation timestamp, so two items created at distinct timestamps have
distinct ids (items created in the same millisecond share one); and an
item is never mutated after creation — every operation of the component
either leaves the history unchanged or prepends a new item in front of the
existing ones. -/
theorem c9_amended_idsAndImmutability (s : AppState)
    (raw ful raw2 ful2 m : String) (now now2 : Nat)
    (frag : Option String) (micOk : Bool)
    (chunks : List (Option String)) (err : Option String) :
    (now ≠ now2 →
      (mkHistoryItem now raw ful).id ≠ (mkHistoryItem now2 raw2 ful2).id) ∧
    (mkHistoryItem now raw ful).id = natToString now ∧
    (startListening s micOk).history = s.history ∧
    (onopen s).history = s.history ∧
    (onmessage s frag).history = s.history ∧
    (onerror s m).history = s.history ∧
    (onclose s).history = s.history ∧
    (stopListening s).history = s.history ∧
    (handleManualSubmit s).history = s.history ∧
    (handleRegenerate s).history = s.history ∧
    (handleError m s).history = s.history ∧
    s.history <:+ (optimizePrompt s raw now chunks err).history := by
  refine ⟨?_, rfl, ?_, rfl, ?_, ?_, ?_, stopListening_history s, ?_, ?_,
    handleError_history m s, ?_⟩
  · intro hne hid
    exact hne (natToString_inj hid)
  · cases micOk with
    | true => rfl
    | false =>
      show (handleError micBlockedMsg _).history = s.history
      rw [handleError_history]
      rfl
  · cases frag with
    | none => rfl
    | some f => rfl
  · show (handleError voiceEngineErrMsg _).history = s.history
    rw [handleError_history]
    split
    · rw [handleSelectKeyStart_history]
    · rfl
  · unfold onclose
    split
    · exact stopListening_history s
    · rfl
  · unfold handleManualSubmit
    split
    · rfl
    · rfl
  · unfold handleRegenerate
    split
    · rfl
    · rfl
  · rcases err with _ | e
    · show s.history <:+ mkHistoryItem now raw (accumChunksV1 chunks) ::
        s.history
      exact List.suffix_cons _ _
    · show s.history <:+ (if strIncludes e entityNotFoundMsg then
              handleError refineNoKeyMsg
                (handleSelectKeyStart
                  { optimizePromptStart s raw with
                      optimizedPrompt := accumChunksV1 chunks,
                      needsApiKey := true })
            else if strIncludes e apiKeyNotValidMsg then
              handleError refineBadKeyMsg
                { optimizePromptStart s raw with
                    optimizedPrompt := accumChunksV1 chunks }
            else
              handleError refineGenericMsg
                { optimizePromptStart s raw with
                    optimizedPrompt := accumChunksV1 chunks }).history
      split
      · rw [handleError_history, handleSelectKeyStart_history]
        show s.history <:+ s.history
        exact List.suffix_refl _
      · split
        · rw [handleError_history]
          show s.history <:+ s.history
          exact List.suffix_refl _
        · rw [handleError_history]
          show s.history <:+ s.history
          exact List.suffix_refl _

/-- Witness for the amended C9: distinct timestamps give distinct ids. -/
theorem c9_amended_witness :
    (mkHistoryItem 1 "a" "x").id ≠ (mkHistoryItem 2 "b" "y").id :=
  (c9_amended_idsAndImmutability initialState "a" "x" "b" "y" "m" 1 2
    none true [] none).1 (by decide)

/-- C10 counterexample: on a stream chunk whose text field is absent the
two accumulators disagree — the first variant keeps the output unchanged
while the second appends the JS coercion of undefined. -/
theorem c10_counterexample :
    accumChunksV1 [none] ≠ accumChunksV2 [none] := by
  decide

/-- C10 amended: the two accumulation functions agree on every chunk
sequence in which each text field is present; they differ only on chunks
with an absent text field, where the second variant appends the string
undefined. -/
theorem c10_amended_equalOnPresent (chunks : List (Option String))
    (h : ∀ c ∈ chunks, c ≠ none) :
    accumChunksV1 chunks = accumChunksV2 chunks := by
  unfold accumChunksV1 accumChunksV2
  suffices hgen : ∀ l : List (Option String), (∀ c ∈ l, c ≠ none) →
      ∀ acc : String, l.foldl appendChunkV1 acc = l.foldl appendChunkV2 acc by
    exact hgen chunks h ""
  intro l
  induction l with
  | nil => intro _ acc; rfl
  | cons c t ih =>
    intro hl acc
    have hc : c ≠ none := hl c (List.mem_cons_self c t)
    have ht : ∀ x ∈ t, x ≠ none := fun x hx => hl x (List.mem_cons_of_mem c hx)
    rcases c with _ | x
    · exact absurd rfl hc
    · rw [List.foldl_cons, List.foldl_cons]
      by_cases hx : x = ""
      · subst hx
        have h1 : appendChunkV1 acc (some "") = acc := rfl
        have h2 : appendChunkV2 acc (some "") = acc := strAppend_empty acc
        rw [h1, h2]
        exact ih ht acc
      · have hbeq : (x == "") = false := beq_eq_false_iff_ne.mpr hx
        have h1 : appendChunkV1 acc (some x) = acc ++ x := by
          show (if !(x == "") then acc ++ x else acc) = acc ++ x
          rw [hbeq]
          rfl
        rw [h1]
        exact ih ht (acc ++ x)

/-- Witness for the amended C10 on a concrete all-present chunk list. -/
theorem c10_amended_witness :
    accumChunksV1 [some "# Poem", some ""] =
      accumChunksV2 [some "# Poem", some ""] :=
  c10_amended_equalOnPresent [some "# Poem", some ""] (by decide)
